import Mathlib

/-!
Verification of the YouTubeQuery ingestion-to-search pipeline.

This file gives a shallow embedding of the core of the repository:

* `backend/app/services/vector_search.py` (`VectorSearchService.load_index`,
  `build_index`, `search`),
* `backend/app/services/youtube_service.py` (`fetch_transcripts`,
  `get_transcript`),
* `backend/app/models.py` (`SearchRequest.validate_metric`),
* `backend/scripts/embed_and_index.py` (`save_index`),

and proves or refutes the specified properties of the pipeline.

External collaborators (the sentence-transformer model `model.encode`, the
FAISS normalisation routine `faiss.normalize_L2`, and the upstream YouTube
transcript API) are modelled as parameters: the code under verification is
the orchestration around them.  Machine floats are modelled as rationals;
vectors are lists of rationals.
-/

namespace YTQ

/-- Decidable equality for `Except`, used to evaluate concrete runs of
the modelled fallible operations. -/
instance {ε α : Type} [DecidableEq ε] [DecidableEq α] : DecidableEq (Except ε α) :=
  fun a b =>
  match a, b with
  | .ok x, .ok y =>
    if h : x = y then .isTrue (by rw [h]) else .isFalse (fun he => h (by injection he))
  | .error x, .error y =>
    if h : x = y then .isTrue (by rw [h]) else .isFalse (fun he => h (by injection he))
  | .ok _, .error _ => .isFalse (fun he => by injection he)
  | .error _, .ok _ => .isFalse (fun he => by injection he)

/-- Embedding vectors, as produced by the sentence-transformer model. -/
abbrev Vec := List ℚ

/-- Inner product of two vectors, as computed by a FAISS `IndexFlatIP`
(`index.search` scores each stored vector by its inner product with the
query). Trailing entries of the longer list are ignored, matching the
fixed-dimension setting. -/
def dot (a b : Vec) : ℚ := (List.zipWith (fun x y => x * y) a b).sum

/-- Sum of squares of the entries of a vector (the squared L2 norm). -/
def sumSq (a : Vec) : ℚ := (a.map (fun x => x * x)).sum

/-- One row of the transcript/metadata dataframe (`transcripts.parquet`
and `embeddings.parquet` rows, and `videos.parquet` rows).  The
`transcript` field is `none` when the column holds NaN/None. -/
structure TranscriptRow where
  video_id : String
  title : String
  transcript : Option String
deriving DecidableEq

instance : Inhabited TranscriptRow := ⟨⟨"", "", none⟩⟩

/-- The filter `df[df["transcript"].notna() & (df["transcript"] != "")]`
used by `build_index` (vector_search.py line 117) and by
`load_transcripts` (embed_and_index.py line 44). -/
def hasTranscript (r : TranscriptRow) : Bool :=
  match r.transcript with
  | none => false
  | some t => t ≠ ""

/-- Ranking order used to model FAISS result ordering: higher score first,
ties broken by ascending ordinal (FAISS flat indexes return equal-scored
hits in ascending id order, making results deterministic). -/
def hitLE (a b : ℕ × ℚ) : Prop := b.2 < a.2 ∨ (a.2 = b.2 ∧ a.1 ≤ b.1)

instance : DecidableRel hitLE := fun a b => by
  unfold hitLE; exact instDecidableOr

instance : IsTotal (ℕ × ℚ) hitLE where
  total a b := by
    rcases lt_trichotomy a.2 b.2 with h | h | h
    · exact Or.inr (Or.inl h)
    · rcases Nat.le_total a.1 b.1 with h1 | h1
      · exact Or.inl (Or.inr ⟨h, h1⟩)
      · exact Or.inr (Or.inr ⟨h.symm, h1⟩)
    · exact Or.inl (Or.inl h)

instance : IsTrans (ℕ × ℚ) hitLE where
  trans a b c hab hbc := by
    rcases hab with h1 | ⟨h1, h1o⟩ <;> rcases hbc with h2 | ⟨h2, h2o⟩
    · exact Or.inl (h2.trans h1)
    · exact Or.inl (h2 ▸ h1)
    · exact Or.inl (h1 ▸ h2)
    · exact Or.inr ⟨h1.trans h2, h1o.trans h2o⟩

/-- Score every stored vector against the query, pairing each vector with
its ordinal (its zero-based insertion position in the index), starting
from ordinal `i`. -/
def scoredFrom (q : Vec) (i : ℕ) : List Vec → List (ℕ × ℚ)
  | [] => []
  | v :: rest => (i, dot q v) :: scoredFrom q (i + 1) rest

/-- All (ordinal, score) pairs of the index against a query. -/
def scored (index : List Vec) (q : Vec) : List (ℕ × ℚ) :=
  scoredFrom q 0 index

/-- The full ranking FAISS produces for a query: every stored vector,
sorted by descending inner-product score (ties by ascending ordinal). -/
def ranked (index : List Vec) (q : Vec) : List (ℕ × ℚ) :=
  List.insertionSort hitLE (scored index q)

/-- Placeholder entry FAISS emits for unfilled result slots when
`top_k` exceeds the number of stored vectors: index `-1`. -/
def padEntry : Int × ℚ := (-1, 0)

/-- Model of `faiss.IndexFlatIP.search(query, top_k)`: the `top_k` best
(ordinal, score) pairs in descending score order, padded with `-1`
placeholder entries up to length `top_k` when fewer vectors are stored. -/
def faissSearch (index : List Vec) (q : Vec) (k : ℕ) : List (Int × ℚ) :=
  let top := (ranked index q).take k
  top.map (fun p => ((p.1 : Int), p.2)) ++ List.replicate (k - top.length) padEntry

/-- One result produced by `VectorSearchService.search`: the resolved
metadata row's `video_id` together with the hit's ordinal and score. -/
structure Hit where
  ordinal : ℕ
  video_id : String
  score : ℚ
deriving DecidableEq

/-- The skip condition `min_score is not None and score < min_score`
(vector_search.py line 212). -/
def belowMin (ms : Option ℚ) (s : ℚ) : Bool :=
  match ms with
  | none => false
  | some m => decide (s < m)

/-- The result-building loop of `VectorSearchService.search`
(vector_search.py lines 202-236): for each `(dist, idx)` pair, skip
placeholder entries (`idx == -1`), skip scores below `min_score`, then
resolve the metadata row `self.metadata.iloc[idx]` (positional lookup).
A failed positional lookup raises in Python and aborts the whole search,
modelled by `none`. -/
def buildResults (meta : List TranscriptRow) (ms : Option ℚ) :
    List (Int × ℚ) → Option (List Hit)
  | [] => some []
  | (idx, dist) :: rest =>
    if idx = -1 then buildResults meta ms rest
    else if belowMin ms dist then buildResults meta ms rest
    else
      match meta[idx.toNat]? with
      | none => none
      | some row =>
        (buildResults meta ms rest).map
          (fun hs => ⟨idx.toNat, row.video_id, dist⟩ :: hs)

/-- Model of `VectorSearchService.search` on a loaded snapshot
(vector_search.py lines 163-243).  `qe` is the already normalised query
embedding (`faiss.normalize_L2(model.encode([query]))`, both external
collaborators).  The `metric` argument mirrors the Python signature: the
body never reads it, exactly as in the source. -/
def search (index : List Vec) (meta : List TranscriptRow) (qe : Vec)
    (top_k : ℕ) (metric : String) (min_score : Option ℚ) : Option (List Hit) :=
  buildResults meta min_score (faissSearch index qe top_k)

/-- The in-memory part of `VectorSearchService.build_index`
(vector_search.py lines 113-157) downstream of reading
`transcripts.parquet`: filter rows to those with a non-empty transcript,
embed the transcript texts in dataframe order (`model.encode` preserves
order), L2-normalise each embedding, add them to the index in order, and
keep the filtered dataframe itself as the metadata table.  Raises
(`none`) when no row has a transcript (line 121). -/
def buildVectors (embed : String → Vec) (normalize : Vec → Vec)
    (rows : List TranscriptRow) : Option (List Vec × List TranscriptRow) :=
  let df := rows.filter hasTranscript
  if df.length = 0 then none
  else some (df.map (fun r => normalize (embed (r.transcript.getD ""))), df)

/-! ### Persistence model (vector_search.py lines 144-152, embed_and_index.py lines 110-114) -/

/-- Primitive file-system write operations, at the granularity needed to
talk about interrupted writes: truncating a file open for writing,
appending a block of bytes, and an atomic rename. -/
inductive WriteOp where
  | truncate (path : String)
  | append (path : String) (b : ℕ)
  | rename (src : String) (dst : String)
deriving DecidableEq

/-- A file system: contents (as byte-block lists) per path, `none` when
the path does not exist. -/
def FS := String → Option (List ℕ)

/-- Effect of one primitive write operation on the file system. -/
def applyOp (fs : FS) : WriteOp → FS
  | .truncate p => fun q => if q = p then some [] else fs q
  | .append p b => fun q => if q = p then some ((fs p).getD [] ++ [b]) else fs q
  | .rename src dst =>
      fun q => if q = dst then fs src else if q = src then none else fs q

/-- Effect of a sequence of write operations, applied left to right. -/
def applyOps (fs : FS) : List WriteOp → FS
  | [] => fs
  | op :: rest => applyOps (applyOp fs op) rest

/-- Writing a file of given content at a path, as a non-atomic sequence
of primitive operations: truncate, then append block by block. -/
def writeFileOps (path : String) (content : List ℕ) : List WriteOp :=
  .truncate path :: content.map (.append path)

/-- The index file path (`settings.index_path`, default
`./data/index.faiss`). -/
def indexPath : String := "./data/index.faiss"

/-- The companion metadata file path (`settings.embeddings_path`, default
`./data/embeddings.parquet`). -/
def embeddingsPath : String := "./data/embeddings.parquet"

/-- The write sequence `build_index` performs to persist a snapshot
(vector_search.py lines 144-152): `faiss.write_index(self.index,
self.index_path)` writes directly to the final index path, then
`df.to_parquet(self.embeddings_path)` writes directly to the final
metadata path.  `save_index` in embed_and_index.py (lines 110-114) does
the same direct `faiss.write_index` to the output path.  No temporary
file and no rename appears anywhere in either function. -/
def persistOps (indexBytes metaBytes : List ℕ) : List WriteOp :=
  writeFileOps indexPath indexBytes ++ writeFileOps embeddingsPath metaBytes

/-- A write operation neither is a rename nor touches any path other
than the two final snapshot paths. -/
def directToFinal : WriteOp → Prop
  | .truncate p => p = indexPath ∨ p = embeddingsPath
  | .append p _ => p = indexPath ∨ p = embeddingsPath
  | .rename _ _ => False

/-! ### Loading a snapshot (vector_search.py lines 48-72) -/

/-- Distinguishable errors raised by `load_index`: the two
`FileNotFoundError` messages of lines 53 and 60. -/
inductive LoadErr where
  | indexNotFound
  | metadataNotFound
deriving DecidableEq

/-- The on-disk snapshot as `load_index` sees it: the FAISS index file
(its stored vectors) and the metadata parquet (its rows), each possibly
absent. -/
structure DiskState where
  indexFile : Option (List Vec)
  embeddingsFile : Option (List TranscriptRow)
deriving DecidableEq

/-- Model of `VectorSearchService.load_index` (vector_search.py lines
48-72): raise `Index not found` if the index file is absent, then raise
`Embeddings metadata not found` if the metadata file is absent, then
accept both as the loaded state.  The function performs no comparison of
`self.index.ntotal` against `len(self.metadata)`: it only logs both
counts (lines 65-68). -/
def load_index (d : DiskState) : Except LoadErr (List Vec × List TranscriptRow) :=
  match d.indexFile with
  | none => .error .indexNotFound
  | some vecs =>
    match d.embeddingsFile with
    | none => .error .metadataNotFound
    | some meta => .ok (vecs, meta)

/-! ### build_index as a state transformer (vector_search.py lines 74-161) -/

/-- The persistent state `build_index` interacts with: the transcripts
parquet it reads and the snapshot files it writes. -/
structure SysState where
  transcriptsFile : Option (List TranscriptRow)
  indexFile : Option (List Vec)
  embeddingsFile : Option (List TranscriptRow)
deriving DecidableEq

/-- Errors `build_index` can raise, by source line. -/
inductive BuildErr where
  | metadataNotFound
  | transcriptsNotFound
  | noTranscripts
deriving DecidableEq

/-- Model of `VectorSearchService.build_index` (vector_search.py lines
74-161).  Returns the `(videos_indexed, index_size)` pair, the new system
state, and the number of disk writes performed.  If the index file exists
and `force_rebuild` is false (line 93), it loads the existing snapshot
and returns its counts with zero writes; otherwise it reads the
transcripts file, filters to rows with non-empty transcripts, embeds and
normalises them in order, and writes the index file and the metadata
file (two writes). -/
def build_index (embed : String → Vec) (normalize : Vec → Vec)
    (st : SysState) (force_rebuild : Bool) :
    Except BuildErr ((ℕ × ℕ) × SysState × ℕ) :=
  match st.indexFile, force_rebuild with
  | some vecs, false =>
    match st.embeddingsFile with
    | none => .error .metadataNotFound
    | some meta => .ok ((meta.length, vecs.length), st, 0)
  | _, _ =>
    match st.transcriptsFile with
    | none => .error .transcriptsNotFound
    | some rows =>
      match buildVectors embed normalize rows with
      | none => .error .noTranscripts
      | some (vecs, df) =>
        .ok ((df.length, vecs.length),
          { st with indexFile := some vecs, embeddingsFile := some df }, 2)

/-! ### Transcript fetching (youtube_service.py lines 245-348) -/

/-- Outcome of one upstream call to
`YouTubeTranscriptApi.get_transcript(video_id)`: a list of segment texts,
a permanent unavailability (`TranscriptsDisabled`, `NoTranscriptFound`,
`VideoUnavailable`), or any other (transient) exception such as a network
or rate-limit error. -/
inductive TranscriptOutcome where
  | segments (segs : List String)
  | permanentUnavailable
  | transientError
deriving DecidableEq

/-- The upstream transcript provider, as a function of the video id. -/
abbrev Oracle := String → TranscriptOutcome

/-- Model of `YouTubeService.get_transcript` (youtube_service.py lines
329-348): one single upstream call; the permanent-unavailability
exceptions are caught and mapped to `None`, and every other exception is
also caught and mapped to `None`.  There is no retry loop. -/
def get_transcript (o : Oracle) (v : String) : Option (List String) :=
  match o v with
  | .segments s => some s
  | .permanentUnavailable => none
  | .transientError => none

/-- A parquet table together with whether it has a `transcript` column
(pandas column membership, checked at youtube_service.py line 275). -/
structure Table where
  rows : List TranscriptRow
  hasTranscriptCol : Bool
deriving DecidableEq

/-- The per-video filter of the re-fetch path: rows whose transcript is
NaN or the empty string (youtube_service.py line 276). -/
def needsTranscript (r : TranscriptRow) : Bool :=
  match r.transcript with
  | none => true
  | some t => t = ""

/-- Processing of one video inside the `fetch_transcripts` loop
(youtube_service.py lines 285-302): call `get_transcript`; on a truthy
(non-empty) segment list join the texts with spaces and count a success,
otherwise record `transcript: None` and count a failure. -/
def fetchOne (o : Oracle) (r : TranscriptRow) : TranscriptRow × Bool :=
  match get_transcript o r.video_id with
  | some segs =>
    if segs.isEmpty then ({ r with transcript := none }, false)
    else ({ r with transcript := some (String.intercalate " " segs) }, true)
  | none => ({ r with transcript := none }, false)

/-- The `fetch_transcripts` loop over the selected rows: returns the
`(success_count, failed_count)` pair, the updated rows in order, and the
number of upstream `get_transcript` calls made. -/
def runFetch (o : Oracle) : List TranscriptRow → (ℕ × ℕ) × List TranscriptRow × ℕ
  | [] => ((0, 0), [], 0)
  | r :: rest =>
    let p := fetchOne o r
    let rec_ := runFetch o rest
    ((if p.2 then (rec_.1.1 + 1, rec_.1.2) else (rec_.1.1, rec_.1.2 + 1)),
      p.1 :: rec_.2.1, rec_.2.2 + 1)

/-- The two parquet files `fetch_transcripts` touches: it reads
`settings.videos_path` (line 268) and writes `settings.transcripts_path`
(line 320).  These are distinct files (`./data/videos.parquet` and
`./data/transcripts.parquet`, config.py lines 83-86), and nothing in the
repository ever writes a transcript column into the videos file. -/
structure PipeState where
  videosFile : Option Table
  transcriptsFile : Option Table
deriving DecidableEq

/-- Model of `YouTubeService.fetch_transcripts` (youtube_service.py lines
245-327): read the videos parquet (error if absent), optionally restrict
to the requested `video_ids`, skip rows that already have a transcript
only when the table actually has a `transcript` column and
`force_refresh` is false, fetch each remaining video independently, and
write the merged result (the attempted rows with their new transcript
values) to the transcripts parquet.  Returns the counts, the new state,
and the number of upstream calls made. -/
def fetch_transcripts (o : Oracle) (st : PipeState)
    (video_ids : Option (List String)) (force_refresh : Bool) :
    Except String ((ℕ × ℕ) × PipeState × ℕ) :=
  match st.videosFile with
  | none => .error "Videos file not found"
  | some vt =>
    let rows1 := match video_ids with
      | some ids => vt.rows.filter (fun r => ids.contains r.video_id)
      | none => vt.rows
    let rows2 := if !force_refresh && vt.hasTranscriptCol
      then rows1.filter needsTranscript else rows1
    let out := runFetch o rows2
    .ok (out.1, { st with transcriptsFile := some ⟨out.2.1, true⟩ }, out.2.2)

/-! ### Metric validation (models.py lines 22-27) and the API search path -/

/-- Model of `SearchRequest.validate_metric` (models.py lines 22-27):
the metric string must be a member of the allowed list, otherwise a
`ValueError` is raised.  No comparison against the metric the loaded
snapshot was built with takes place anywhere. -/
def validate_metric (m : String) : Except String String :=
  if m = "cosine" ∨ m = "euclidean" ∨ m = "dot_product" then .ok m
  else .error "Metric must be one of cosine, euclidean, dot_product"

/-- The request path of `POST /api/search` (api/search.py lines 24-82):
pydantic validates the metric, then `VectorSearchService.search` runs
with it.  An exception inside the service (a failed positional metadata
lookup) becomes an HTTP 500, modelled as an error string. -/
def api_search (index : List Vec) (meta : List TranscriptRow) (qe : Vec)
    (top_k : ℕ) (metric : String) (min_score : Option ℚ) :
    Except String (List Hit) :=
  match validate_metric metric with
  | .error e => .error e
  | .ok m =>
    match search index meta qe top_k m min_score with
    | none => .error "Search failed"
    | some hits => .ok hits

/-! ### Concrete instances used in witnesses and counterexamples -/

/-- A toy embedding provider for concrete runs: a one-dimensional vector
holding the text length. -/
def embed0 : String → Vec := fun s => [(s.length : ℚ)]

/-- A toy stand-in for `faiss.normalize_L2` in concrete runs. -/
def normalize0 : Vec → Vec := fun v => v

/-- Concrete transcript rows: two with transcripts, one without. -/
def rows0 : List TranscriptRow :=
  [⟨"a", "t1", some "hi"⟩, ⟨"b", "t2", none⟩, ⟨"c", "t3", some "x"⟩]

/-- Vectors produced by `buildVectors embed0 normalize0 rows0`. -/
def vecs0 : List Vec := [[2], [1]]

/-- Metadata produced by `buildVectors embed0 normalize0 rows0`. -/
def meta0 : List TranscriptRow := [⟨"a", "t1", some "hi"⟩, ⟨"c", "t3", some "x"⟩]

/-- Scenario C index: six one-dimensional stored vectors whose scores
against `qC` are 0.95, 0.92, 0.5, 0.4, 0.3, 0.2 -- only two of the top
five clear a `min_score` of 0.9. -/
def idx6 : List Vec :=
  [[mkRat 19 20], [mkRat 23 25], [mkRat 1 2], [mkRat 2 5], [mkRat 3 10], [mkRat 1 5]]

/-- Metadata aligned with `idx6`. -/
def meta6 : List TranscriptRow :=
  [⟨"v0", "t0", some "s0"⟩, ⟨"v1", "t1", some "s1"⟩, ⟨"v2", "t2", some "s2"⟩,
   ⟨"v3", "t3", some "s3"⟩, ⟨"v4", "t4", some "s4"⟩, ⟨"v5", "t5", some "s5"⟩]

/-- Scenario C query embedding. -/
def qC : Vec := [1]

/-- A cosine snapshot of L2-normalised stored vectors. -/
def idxU : List Vec := [[mkRat 3 5, mkRat 4 5], [1, 0]]

/-- Metadata aligned with `idxU`. -/
def metaU : List TranscriptRow := [⟨"u0", "t", some "s"⟩, ⟨"u1", "t", some "s"⟩]

/-- A unit-norm query embedding for `idxU`. -/
def qU : Vec := [0, 1]

/-- A one-dimensional unit stored vector opposite to the query `qPos`. -/
def idxNeg : List Vec := [[-1]]

/-- Metadata aligned with `idxNeg`. -/
def metaNeg : List TranscriptRow := [⟨"n0", "t", some "s"⟩]

/-- A one-dimensional unit query embedding. -/
def qPos : Vec := [1]

/-- A file system already holding an on-disk snapshot at both paths. -/
def fsOld : FS := fun p =>
  if p = indexPath then some [1, 2]
  else if p = embeddingsPath then some [7] else none

/-- Ten collected videos, as the rows of `videos.parquet` right after
collection: no transcript column. -/
def videos10 : List TranscriptRow :=
  [⟨"v0", "t0", none⟩, ⟨"v1", "t1", none⟩, ⟨"v2", "t2", none⟩,
   ⟨"v3", "t3", none⟩, ⟨"v4", "t4", none⟩, ⟨"v5", "t5", none⟩,
   ⟨"v6", "t6", none⟩, ⟨"v7", "t7", none⟩, ⟨"v8", "t8", none⟩,
   ⟨"v9", "t9", none⟩]

/-- Scenario B upstream provider: video `v7` is permanently unavailable
(captions disabled), every other video has a transcript. -/
def oracleB : Oracle := fun v =>
  if v = "v7" then .permanentUnavailable else .segments ["hello", "world"]

/-- Pipeline state right after collecting the ten videos. -/
def stB0 : PipeState := ⟨some ⟨videos10, false⟩, none⟩

/-- The rows written to `transcripts.parquet` by the first Scenario B
fetch: every video holds its transcript text except `v7`. -/
def fetched10 : List TranscriptRow :=
  [⟨"v0", "t0", some "hello world"⟩, ⟨"v1", "t1", some "hello world"⟩,
   ⟨"v2", "t2", some "hello world"⟩, ⟨"v3", "t3", some "hello world"⟩,
   ⟨"v4", "t4", some "hello world"⟩, ⟨"v5", "t5", some "hello world"⟩,
   ⟨"v6", "t6", some "hello world"⟩, ⟨"v7", "t7", none⟩,
   ⟨"v8", "t8", some "hello world"⟩, ⟨"v9", "t9", some "hello world"⟩]

/-- Pipeline state after the first Scenario B fetch: the fetched
transcripts live in `transcripts.parquet`; `videos.parquet` is untouched
and still has no transcript column. -/
def stB1 : PipeState := ⟨some ⟨videos10, false⟩, some ⟨fetched10, true⟩⟩

/-- An upstream provider that always fails transiently. -/
def oracleTransient : Oracle := fun _ => .transientError

/-- An upstream provider that always fails permanently. -/
def oraclePermanent : Oracle := fun _ => .permanentUnavailable

/-- Replacing every transient outcome of a provider by a permanent one. -/
def conflate (o : Oracle) : Oracle := fun v =>
  match o v with
  | .transientError => .permanentUnavailable
  | x => x

/-- A single collected video with no transcript yet. -/
def rowV1 : TranscriptRow := ⟨"v1", "t", none⟩

/-- System state for the rebuild witness: transcripts collected, no
snapshot on disk yet. -/
def st90 : SysState := ⟨some rows0, none, none⟩

/-- System state after the first build from `st90`. -/
def st91 : SysState := ⟨some rows0, some vecs0, some meta0⟩

/-- A metadata row for the load counterexample. -/
def rowA : TranscriptRow := ⟨"a", "t", some "s"⟩

/-- An on-disk snapshot whose vector count (2) disagrees with its
metadata row count (3). -/
def dMismatch : DiskState := ⟨some [[1], [2]], some [rowA, rowA, rowA]⟩

/-- An on-disk state with an index file but no metadata file. -/
def dNoMeta : DiskState := ⟨some [[1]], none⟩

/-! ### Helper lemmas about the model -/

theorem sumSq_nonneg (a : Vec) : 0 ≤ sumSq a := by
  induction a with
  | nil => simp [sumSq]
  | cons x t ih =>
    simp only [sumSq, List.map_cons, List.sum_cons] at ih ⊢
    nlinarith [mul_self_nonneg x]

theorem two_mul_dot_le (a b : Vec) : 2 * dot a b ≤ sumSq a + sumSq b := by
  induction a generalizing b with
  | nil =>
    have hb := sumSq_nonneg b
    simp only [dot, List.zipWith_nil_left, List.sum_nil, sumSq, List.map_nil]
    simp only [sumSq] at hb
    linarith
  | cons x ta ih =>
    cases b with
    | nil =>
      have ha := sumSq_nonneg (x :: ta)
      simp only [dot, List.zipWith_nil_right, List.sum_nil, sumSq, List.map_nil]
      simp only [sumSq] at ha
      linarith
    | cons y tb =>
      have h := ih tb
      simp only [dot, sumSq, List.zipWith_cons_cons, List.sum_cons, List.map_cons] at h ⊢
      nlinarith [sq_nonneg (x - y)]

theorem neg_le_two_mul_dot (a b : Vec) : -(sumSq a + sumSq b) ≤ 2 * dot a b := by
  induction a generalizing b with
  | nil =>
    have hb := sumSq_nonneg b
    simp only [dot, List.zipWith_nil_left, List.sum_nil, sumSq, List.map_nil]
    simp only [sumSq] at hb
    linarith
  | cons x ta ih =>
    cases b with
    | nil =>
      have ha := sumSq_nonneg (x :: ta)
      simp only [dot, List.zipWith_nil_right, List.sum_nil, sumSq, List.map_nil]
      simp only [sumSq] at ha
      linarith
    | cons y tb =>
      have h := ih tb
      simp only [dot, sumSq, List.zipWith_cons_cons, List.sum_cons, List.map_cons] at h ⊢
      nlinarith [sq_nonneg (x + y)]

theorem scoredFrom_length (q : Vec) (i : ℕ) (l : List Vec) :
    (scoredFrom q i l).length = l.length := by
  induction l generalizing i with
  | nil => rfl
  | cons v t ih => simp [scoredFrom, ih]

theorem mem_scoredFrom {q : Vec} {i : ℕ} {l : List Vec} {p : ℕ × ℚ}
    (hp : p ∈ scoredFrom q i l) :
    i ≤ p.1 ∧ ∃ v, l[p.1 - i]? = some v ∧ p.2 = dot q v := by
  induction l generalizing i with
  | nil => simp [scoredFrom] at hp
  | cons v t ih =>
    simp only [scoredFrom, List.mem_cons] at hp
    rcases hp with h | h
    · subst h
      exact ⟨le_refl i, v, by simp, rfl⟩
    · obtain ⟨hle, w, hw, hd⟩ := ih h
      refine ⟨by omega, w, ?_, hd⟩
      have heq : p.1 - i = (p.1 - (i + 1)) + 1 := by omega
      rw [heq]
      simpa using hw

theorem mem_scored {index : List Vec} {q : Vec} {p : ℕ × ℚ}
    (hp : p ∈ scored index q) :
    ∃ v, index[p.1]? = some v ∧ p.2 = dot q v := by
  obtain ⟨-, v, hv, hd⟩ := mem_scoredFrom hp
  exact ⟨v, by simpa using hv, hd⟩

theorem ranked_perm (index : List Vec) (q : Vec) :
    (ranked index q).Perm (scored index q) :=
  List.perm_insertionSort hitLE (scored index q)

theorem ranked_sorted (index : List Vec) (q : Vec) :
    (ranked index q).Sorted hitLE :=
  List.sorted_insertionSort hitLE (scored index q)

theorem ranked_length (index : List Vec) (q : Vec) :
    (ranked index q).length = index.length := by
  rw [(ranked_perm index q).length_eq, scored, scoredFrom_length]

theorem mem_ranked {index : List Vec} {q : Vec} {p : ℕ × ℚ}
    (hp : p ∈ ranked index q) :
    ∃ v, index[p.1]? = some v ∧ p.2 = dot q v :=
  mem_scored ((ranked_perm index q).mem_iff.mp hp)

theorem mem_ranked_lt {index : List Vec} {q : Vec} {p : ℕ × ℚ}
    (hp : p ∈ ranked index q) : p.1 < index.length := by
  obtain ⟨v, hv, -⟩ := mem_ranked hp
  rw [List.getElem?_eq_some] at hv
  exact hv.1

theorem belowMin_mono {ms : Option ℚ} {a b : ℕ × ℚ} (hab : hitLE a b)
    (ha : belowMin ms a.2 = true) : belowMin ms b.2 = true := by
  cases ms with
  | none => simp [belowMin] at ha
  | some m =>
    simp only [belowMin, decide_eq_true_eq] at ha ⊢
    rcases hab with h | ⟨h, -⟩
    · exact h.trans ha
    · exact h ▸ ha

theorem filter_take_sorted (ms : Option ℚ) :
    ∀ (l : List (ℕ × ℚ)) (k : ℕ), l.Sorted hitLE →
      (l.take k).filter (fun p => !belowMin ms p.2) =
        (l.filter (fun p => !belowMin ms p.2)).take k
  | [], k, _ => by simp
  | x :: t, 0, _ => by simp
  | x :: t, k + 1, hs => by
    have hs1 : t.Sorted hitLE := hs.of_cons
    by_cases hx : belowMin ms x.2 = true
    · have hall : ∀ y ∈ t, belowMin ms y.2 = true := fun y hy =>
        belowMin_mono (List.rel_of_sorted_cons hs y hy) hx
      have h1 : t.filter (fun p => !belowMin ms p.2) = [] :=
        List.filter_eq_nil_iff.mpr (fun y hy => by simp [hall y hy])
      have h2 : (t.take k).filter (fun p => !belowMin ms p.2) = [] :=
        List.filter_eq_nil_iff.mpr
          (fun y hy => by simp [hall y (List.take_subset k t hy)])
      simp [List.filter_cons, hx, h1, h2]
    · simp [List.filter_cons, hx, filter_take_sorted ms t k hs1]

theorem buildResults_eq (meta : List TranscriptRow) (ms : Option ℚ) :
    ∀ (l : List (Int × ℚ)),
      (∀ e ∈ l, e.1 = -1 ∨ (0 ≤ e.1 ∧ e.1.toNat < meta.length)) →
      buildResults meta ms l =
        some ((l.filter (fun e => !decide (e.1 = -1) && !belowMin ms e.2)).map
          (fun e => ⟨e.1.toNat, (meta.getD e.1.toNat default).video_id, e.2⟩))
  | [], _ => by simp [buildResults]
  | (idx, dist) :: rest, h => by
    have hrest := buildResults_eq meta ms rest
      (fun e he => h e (List.mem_cons_of_mem _ he))
    by_cases h1 : idx = -1
    · simp [buildResults, h1, hrest, List.filter_cons]
    · by_cases h2 : belowMin ms dist = true
      · simp [buildResults, h1, h2, hrest, List.filter_cons]
      · have hin : idx.toNat < meta.length := by
          rcases h (idx, dist) (List.mem_cons_self _ _) with h3 | h3
          · exact absurd h3 h1
          · exact h3.2
        have hrow : meta[idx.toNat]? = some (meta.getD idx.toNat default) := by
          rw [List.getD_eq_getElem _ _ hin]
          exact List.getElem?_eq_getElem hin
        have hstep : buildResults meta ms ((idx, dist) :: rest) =
            (buildResults meta ms rest).map
              (fun hs => ⟨idx.toNat, (meta.getD idx.toNat default).video_id, dist⟩ :: hs) := by
          simp only [buildResults]
          rw [if_neg h1, if_neg (by simp [h2]), hrow]
        rw [hstep, hrest]
        simp [List.filter_cons, h1, h2]

theorem mem_buildResults_source (meta : List TranscriptRow) (ms : Option ℚ) :
    ∀ (l : List (Int × ℚ)) (hits : List Hit),
      buildResults meta ms l = some hits → ∀ hit ∈ hits,
      ∃ e ∈ l, e.1 ≠ -1 ∧ e.1.toNat = hit.ordinal ∧ e.2 = hit.score ∧
        ∃ row, meta[hit.ordinal]? = some row ∧ hit.video_id = row.video_id
  | [], hits, h, hit, hh => by
    simp only [buildResults, Option.some.injEq] at h
    subst h
    simp at hh
  | (idx, dist) :: rest, hits, h, hit, hh => by
    by_cases h1 : idx = -1
    · have h2 : buildResults meta ms rest = some hits := by
        simpa [buildResults, h1] using h
      obtain ⟨e, he, hrest⟩ := mem_buildResults_source meta ms rest hits h2 hit hh
      exact ⟨e, List.mem_cons_of_mem _ he, hrest⟩
    · by_cases h2 : belowMin ms dist = true
      · have h3 : buildResults meta ms rest = some hits := by
          simpa [buildResults, h1, h2] using h
        obtain ⟨e, he, hrest⟩ := mem_buildResults_source meta ms rest hits h3 hit hh
        exact ⟨e, List.mem_cons_of_mem _ he, hrest⟩
      · cases hrow : meta[idx.toNat]? with
        | none => simp [buildResults, h1, h2, hrow] at h
        | some row =>
          have h4 : (buildResults meta ms rest).map
              (fun hs => (⟨idx.toNat, row.video_id, dist⟩ : Hit) :: hs) = some hits := by
            simpa [buildResults, h1, h2, hrow] using h
          obtain ⟨hits0, h5, h6⟩ := Option.map_eq_some'.mp h4
          subst h6
          rcases List.mem_cons.mp hh with hhit | hhit
          · subst hhit
            exact ⟨(idx, dist), List.mem_cons_self _ _, h1, rfl, rfl,
              row, hrow, rfl⟩
          · obtain ⟨e, he, hrest⟩ :=
              mem_buildResults_source meta ms rest hits0 h5 hit hhit
            exact ⟨e, List.mem_cons_of_mem _ he, hrest⟩

theorem mem_faissSearch {index : List Vec} {qe : Vec} {k : ℕ} {e : Int × ℚ}
    (he : e ∈ faissSearch index qe k) (hne : e.1 ≠ -1) :
    ∃ p ∈ ranked index qe, e = ((p.1 : Int), p.2) := by
  unfold faissSearch at he
  rcases List.mem_append.mp he with he | he
  · obtain ⟨p, hp, rfl⟩ := List.mem_map.mp he
    exact ⟨p, List.take_subset k _ hp, rfl⟩
  · exact absurd (by rw [List.eq_of_mem_replicate he]; rfl) hne

theorem search_eq (index : List Vec) (meta : List TranscriptRow) (qe : Vec)
    (k : ℕ) (metric : String) (ms : Option ℚ)
    (halign : meta.length = index.length) :
    search index meta qe k metric ms =
      some ((((ranked index qe).take k).filter (fun p => !belowMin ms p.2)).map
        (fun p => ⟨p.1, (meta.getD p.1 default).video_id, p.2⟩)) := by
  unfold search faissSearch
  have hbound : ∀ e ∈ ((ranked index qe).take k).map
      (fun p => ((p.1 : Int), p.2)) ++
      List.replicate (k - ((ranked index qe).take k).length) padEntry,
      e.1 = -1 ∨ (0 ≤ e.1 ∧ e.1.toNat < meta.length) := by
    intro e he
    rcases List.mem_append.mp he with he | he
    · obtain ⟨p, hp, rfl⟩ := List.mem_map.mp he
      right
      refine ⟨Int.natCast_nonneg _, ?_⟩
      simp only [Int.toNat_natCast]
      have hpr : p ∈ ranked index qe := List.take_subset k _ hp
      have := mem_ranked_lt hpr
      omega
    · left
      rw [List.eq_of_mem_replicate he]
      rfl
  rw [buildResults_eq meta ms _ hbound]
  congr 1
  rw [List.filter_append]
  have hpadnil : (List.replicate (k - ((ranked index qe).take k).length)
      padEntry).filter (fun e => !decide (e.1 = -1) && !belowMin ms e.2) = [] := by
    apply List.filter_eq_nil_iff.mpr
    intro e he
    rw [List.eq_of_mem_replicate he]
    simp [padEntry]
  rw [hpadnil, List.append_nil, List.filter_map, List.map_map]
  have hfc : ((ranked index qe).take k).filter
      ((fun e : Int × ℚ => !decide (e.1 = -1) && !belowMin ms e.2) ∘
        (fun p : ℕ × ℚ => ((p.1 : Int), p.2))) =
      ((ranked index qe).take k).filter (fun p => !belowMin ms p.2) := by
    apply List.filter_congr
    intro p hp
    have : ¬((p.1 : Int) = -1) := by omega
    simp [this]
  rw [hfc]
  apply List.map_congr_left
  intro p hp
  simp [Int.toNat_natCast]

theorem not_belowMin_some (m s : ℚ) : (!belowMin (some m) s) = decide (m ≤ s) := by
  by_cases h : s < m
  · simp [belowMin, h, not_le.mpr h]
  · simp [belowMin, h, not_lt.mp h]

/-! ### Claim C1: ordinal alignment -/

/-- C1: for every successful index build, the vector count equals the
metadata row count, the vector at position `i` was computed from the
transcript in metadata row `i` (embedded and normalised in dataframe
order), and every search hit with ordinal `i` resolves via metadata row
`i` to the `video_id` whose transcript produced that vector. -/
theorem c1_ordinal_alignment (embed : String → Vec) (normalize : Vec → Vec)
    (rows : List TranscriptRow) (vecs : List Vec) (meta : List TranscriptRow)
    (h : buildVectors embed normalize rows = some (vecs, meta)) :
    vecs.length = meta.length ∧
    (∀ i : ℕ, vecs[i]? =
      (meta[i]?).map (fun r : TranscriptRow => normalize (embed (r.transcript.getD "")))) ∧
    (∀ qe k metric ms hits, search vecs meta qe k metric ms = some hits →
      ∀ hit ∈ hits, ∃ row, meta[hit.ordinal]? = some row ∧
        hit.video_id = row.video_id ∧
        vecs[hit.ordinal]? = some (normalize (embed (row.transcript.getD "")))) := by
  unfold buildVectors at h
  by_cases hdf : (rows.filter hasTranscript).length = 0
  · simp [hdf] at h
  · rw [if_neg hdf] at h
    simp only [Option.some.injEq, Prod.mk.injEq] at h
    obtain ⟨hv, hm⟩ := h
    subst hm
    subst hv
    refine ⟨by simp, fun i => List.getElem?_map _ _ i, ?_⟩
    intro qe k metric ms hits hs hit hh
    obtain ⟨e, he, hne, hord, hscore, row, hrow, hvid⟩ :=
      mem_buildResults_source _ ms _ hits hs hit hh
    refine ⟨row, hrow, hvid, ?_⟩
    rw [List.getElem?_map, hrow]
    rfl

/-- Witness for C1: a concrete build over three rows, one of which lacks
a transcript. -/
theorem c1_witness :
    buildVectors embed0 normalize0 rows0 = some (vecs0, meta0) ∧
    (vecs0.length = meta0.length ∧
     (∀ i : ℕ, vecs0[i]? =
       (meta0[i]?).map (fun r : TranscriptRow => normalize0 (embed0 (r.transcript.getD "")))) ∧
     (∀ qe k metric ms hits, search vecs0 meta0 qe k metric ms = some hits →
       ∀ hit ∈ hits, ∃ row, meta0[hit.ordinal]? = some row ∧
         hit.video_id = row.video_id ∧
         vecs0[hit.ordinal]? = some (normalize0 (embed0 (row.transcript.getD ""))))) :=
  ⟨by decide, c1_ordinal_alignment embed0 normalize0 rows0 vecs0 meta0 (by decide)⟩

/-! ### Claim C4: load failure modes -/

/-- C4 counterexample: a snapshot with 2 vectors but 3 metadata rows is
loaded successfully -- the row-count/vector-count disagreement is not
rejected, contrary to the claim that it is always a fatal error. -/
theorem c4_counterexample :
    load_index dMismatch = .ok ([[1], [2]], [rowA, rowA, rowA]) ∧
    ([[1], [2]] : List Vec).length ≠ [rowA, rowA, rowA].length := by
  exact ⟨rfl, by decide⟩

/-- C4 amended: loading fails with the index-not-found error when the
vector file is absent and with the distinct metadata-not-found error
when only the metadata file is absent, but no vector-count/row-count
comparison is performed: any pair of present files is accepted into the
loaded state. -/
theorem c4_load_errors (d : DiskState) :
    (d.indexFile = none → load_index d = .error .indexNotFound) ∧
    (∀ vecs, d.indexFile = some vecs → d.embeddingsFile = none →
      load_index d = .error .metadataNotFound) ∧
    (∀ vecs meta, d.indexFile = some vecs → d.embeddingsFile = some meta →
      load_index d = .ok (vecs, meta)) := by
  refine ⟨?_, ?_, ?_⟩
  · intro h1
    simp [load_index, h1]
  · intro vecs h1 h2
    simp [load_index, h1, h2]
  · intro vecs meta h1 h2
    simp [load_index, h1, h2]

/-- Witness for C4 at a concrete disk state missing only the metadata
file. -/
theorem c4_witness : load_index dNoMeta = .error .metadataNotFound :=
  (c4_load_errors dNoMeta).2.1 [[1]] rfl rfl

/-! ### Claim C9: idempotent rebuild -/

/-- C9: after any successful `build_index` call with
`force_rebuild=false`, calling `build_index` again with
`force_rebuild=false` succeeds, returns the identical
`(videos_indexed, index_size)` pair and the identical state, and
performs zero disk writes. -/
theorem c9_idempotent_rebuild (embed : String → Vec) (normalize : Vec → Vec)
    (st : SysState) (counts : ℕ × ℕ) (st1 : SysState) (w : ℕ)
    (h : build_index embed normalize st false = .ok (counts, st1, w)) :
    build_index embed normalize st1 false = .ok (counts, st1, 0) := by
  obtain ⟨tf, idxf, embf⟩ := st
  cases idxf with
  | some vecs =>
    cases embf with
    | none => simp [build_index] at h
    | some meta =>
      simp only [build_index, Except.ok.injEq, Prod.mk.injEq] at h
      obtain ⟨hc, hst, hw⟩ := h
      subst hc
      subst hst
      rfl
  | none =>
    cases tf with
    | none => simp [build_index] at h
    | some rows =>
      cases hbv : buildVectors embed normalize rows with
      | none => simp [build_index, hbv] at h
      | some pair =>
        obtain ⟨vecs, df⟩ := pair
        simp only [build_index, hbv, Except.ok.injEq, Prod.mk.injEq] at h
        obtain ⟨hc, hst, hw⟩ := h
        subst hc
        subst hst
        rfl

/-- Witness for C9: a concrete first build followed by the no-op second
call. -/
theorem c9_witness :
    build_index embed0 normalize0 st90 false = .ok ((2, 2), st91, 2) ∧
    build_index embed0 normalize0 st91 false = .ok ((2, 2), st91, 0) :=
  ⟨by decide, c9_idempotent_rebuild embed0 normalize0 st90 (2, 2) st91 2 (by decide)⟩

/-! ### Claim C2: min_score filtering semantics -/

/-- C2: against a loaded snapshot, searching with a `min_score` returns
exactly the min_score-clearing entries of the full descending ranking,
truncated to `top_k` afterwards (filtering happens before truncation in
the observable result); when at least `top_k` stored vectors clear
`min_score`, exactly `top_k` results come back; and the surviving
results form a sublist of the unfiltered results, so filtering never
changes their relative rank order. -/
theorem c2_min_score_filtering (index : List Vec) (meta : List TranscriptRow)
    (qe : Vec) (k : ℕ) (m : ℚ) (halign : meta.length = index.length) :
    search index meta qe k "cosine" (some m) =
      some ((((ranked index qe).filter (fun p => decide (m ≤ p.2))).take k).map
        (fun p => ⟨p.1, (meta.getD p.1 default).video_id, p.2⟩)) ∧
    (k ≤ (scored index qe).countP (fun p => decide (m ≤ p.2)) →
      ∀ hits, search index meta qe k "cosine" (some m) = some hits →
        hits.length = k) ∧
    (∀ hits hitsAll, search index meta qe k "cosine" (some m) = some hits →
      search index meta qe k "cosine" none = some hitsAll →
      List.Sublist hits hitsAll) := by
  have hfilter : ∀ l : List (ℕ × ℚ), l.filter (fun p => !belowMin (some m) p.2) =
      l.filter (fun p => decide (m ≤ p.2)) := fun l =>
    List.filter_congr (fun p _ => not_belowMin_some m p.2)
  have h0 := search_eq index meta qe k "cosine" (some m) halign
  have h1 := search_eq index meta qe k "cosine" (some m) halign
  rw [filter_take_sorted (some m) _ k (ranked_sorted index qe), hfilter] at h1
  refine ⟨h1, ?_, ?_⟩
  · intro hk hits hs
    rw [h1] at hs
    have hs1 := Option.some.inj hs
    have hlen : ((ranked index qe).filter (fun p => decide (m ≤ p.2))).length =
        (scored index qe).countP (fun p => decide (m ≤ p.2)) := by
      rw [← List.countP_eq_length_filter]
      exact (ranked_perm index qe).countP_eq _
    rw [← hs1]
    simp only [List.length_map, List.length_take, hlen]
    omega
  · intro hits hitsAll hs hsAll
    have h2 := search_eq index meta qe k "cosine" none halign
    have htrue : ((ranked index qe).take k).filter (fun p => !belowMin none p.2) =
        (ranked index qe).take k := by
      simp [belowMin]
    rw [htrue] at h2
    rw [h0] at hs
    rw [h2] at hsAll
    rw [← Option.some.inj hs, ← Option.some.inj hsAll]
    exact (List.filter_sublist _).map _

unseal Rat.add Rat.mul in
/-- Witness for C2 at Scenario C: six stored vectors scoring 0.95, 0.92,
0.5, 0.4, 0.3, 0.2 against the query; `top_k = 5`, `min_score = 0.9`
returns exactly the two clearing entries, sorted descending. -/
theorem c2_witness :
    meta6.length = idx6.length ∧
    search idx6 meta6 qC 5 "cosine" (some (mkRat 9 10)) =
      some [⟨0, "v0", mkRat 19 20⟩, ⟨1, "v1", mkRat 23 25⟩] ∧
    search idx6 meta6 qC 5 "cosine" (some (mkRat 9 10)) =
      some ((((ranked idx6 qC).filter (fun p => decide ((mkRat 9 10 : ℚ) ≤ p.2))).take 5).map
        (fun p => ⟨p.1, (meta6.getD p.1 default).video_id, p.2⟩)) :=
  ⟨by decide, by decide,
    (c2_min_score_filtering idx6 meta6 qC 5 (mkRat 9 10) (by decide)).1⟩

/-! ### Claim C8: cosine score bounds -/

unseal Rat.add Rat.mul in
/-- C8 counterexample: a cosine snapshot holding the unit vector
`[-1]` queried with the unit embedding `[1]` returns the score `-1`,
which lies outside `[0, 1]`. -/
theorem c8_counterexample :
    (∀ v ∈ idxNeg, sumSq v = 1) ∧ sumSq qPos = 1 ∧
    search idxNeg metaNeg qPos 1 "cosine" none = some [⟨0, "n0", -1⟩] ∧
    ((-1 : ℚ) < 0) :=
  ⟨by decide, by decide, by decide, by decide⟩

/-- C8 amended: every score a search returns against a snapshot of
L2-normalised stored vectors, with an L2-normalised query embedding, is
an inner product of unit vectors and lies in `[-1, 1]` (not `[0, 1]`:
negative scores are possible, and violate the `score ≥ 0` bound of the
`SearchResult` response model). -/
theorem c8_cosine_score_bounds (index : List Vec) (meta : List TranscriptRow)
    (qe : Vec) (k : ℕ) (metric : String) (ms : Option ℚ) (hits : List Hit)
    (hunit : ∀ v ∈ index, sumSq v = 1) (hq : sumSq qe = 1)
    (hs : search index meta qe k metric ms = some hits) :
    ∀ hit ∈ hits, -1 ≤ hit.score ∧ hit.score ≤ 1 := by
  intro hit hh
  obtain ⟨e, he, hne, hord, hscore, -⟩ :=
    mem_buildResults_source meta ms _ hits hs hit hh
  obtain ⟨p, hp, rfl⟩ := mem_faissSearch he hne
  obtain ⟨v, hv, hd⟩ := mem_ranked hp
  have hvmem : v ∈ index := List.getElem?_mem hv
  have h1 := two_mul_dot_le qe v
  have h2 := neg_le_two_mul_dot qe v
  rw [hq, hunit v hvmem] at h1 h2
  have hsc : hit.score = dot qe v := by
    rw [← hscore]
    exact hd
  constructor <;> rw [hsc] <;> linarith

unseal Rat.add Rat.mul in
/-- Witness for C8 at a concrete unit-vector snapshot: the top hit's
score 4/5 obeys the proved bounds. -/
theorem c8_witness :
    (∀ v ∈ idxU, sumSq v = 1) ∧ sumSq qU = 1 ∧
    (-1 ≤ (mkRat 4 5 : ℚ) ∧ (mkRat 4 5 : ℚ) ≤ 1) :=
  ⟨by decide, by decide, by
    have h := c8_cosine_score_bounds idxU metaU qU 2 "cosine" none
      [⟨0, "u0", mkRat 4 5⟩, ⟨1, "u1", 0⟩] (by decide) (by decide) (by decide)
      ⟨0, "u0", mkRat 4 5⟩ (by decide)
    exact h⟩

/-! ### Claim C10: top_k larger than the vector count -/

/-- C10: against a loaded snapshot of `n` vectors, a search with
`top_k > n` and no `min_score` returns exactly `n` results, and no
search ever surfaces a placeholder: every returned hit's ordinal is a
real position below `n`. -/
theorem c10_topk_exceeds_count (index : List Vec) (meta : List TranscriptRow)
    (qe : Vec) (k : ℕ) (halign : meta.length = index.length)
    (hk : index.length < k) :
    (∃ hits, search index meta qe k "cosine" none = some hits ∧
      hits.length = index.length) ∧
    (∀ ms hits, search index meta qe k "cosine" ms = some hits →
      ∀ hit ∈ hits, hit.ordinal < index.length) := by
  constructor
  · have h1 := search_eq index meta qe k "cosine" none halign
    have htake : (ranked index qe).take k = ranked index qe :=
      List.take_of_length_le (by rw [ranked_length]; omega)
    have htrue : (ranked index qe).filter (fun p => !belowMin none p.2) =
        ranked index qe := by
      simp [belowMin]
    rw [htake, htrue] at h1
    exact ⟨_, h1, by simp [ranked_length]⟩
  · intro ms hits hs hit hh
    obtain ⟨e, he, hne, hord, -⟩ :=
      mem_buildResults_source meta ms _ hits hs hit hh
    obtain ⟨p, hp, rfl⟩ := mem_faissSearch he hne
    have hlt := mem_ranked_lt hp
    rw [Int.toNat_natCast] at hord
    omega

/-- Witness for C10: a two-vector snapshot queried with `top_k = 5`
returns exactly two results. -/
theorem c10_witness :
    metaU.length = idxU.length ∧ idxU.length < 5 ∧
    (∃ hits, search idxU metaU qU 5 "cosine" none = some hits ∧
      hits.length = idxU.length) :=
  ⟨by decide, by decide,
    (c10_topk_exceeds_count idxU metaU qU 5 (by decide) (by decide)).1⟩

/-! ### Claim C3: atomicity of persist -/

/-- C3 counterexample: with a snapshot already on disk, interrupting the
persist write sequence after its first primitive operation (the truncate
of the index file opened for writing) leaves the index file empty
instead of its previous content: the previously existing on-disk
snapshot is not left intact. -/
theorem c3_counterexample :
    fsOld indexPath = some [1, 2] ∧
    applyOps fsOld ((persistOps [5] [9]).take 1) indexPath = some [] ∧
    (some ([] : List ℕ) ≠ some [1, 2]) :=
  ⟨rfl, rfl, by decide⟩

/-- C3 amended: persist writes the vector data and the metadata directly
to their final paths -- every primitive operation of the persist
sequence targets `indexPath` or `embeddingsPath` and none is a rename --
so a persist call interrupted after its very first operation leaves the
index file truncated to empty, destroying any previously existing
non-empty snapshot content rather than leaving it intact. -/
theorem c3_persist_not_atomic (indexBytes metaBytes : List ℕ) (fs : FS)
    (old : List ℕ) (hold : fs indexPath = some old) (hne : old ≠ []) :
    (∀ op ∈ persistOps indexBytes metaBytes, directToFinal op) ∧
    applyOps fs ((persistOps indexBytes metaBytes).take 1) indexPath = some [] ∧
    ((some ([] : List ℕ)) ≠ some old) := by
  refine ⟨?_, ?_, ?_⟩
  · intro op hop
    unfold persistOps writeFileOps at hop
    rcases List.mem_append.mp hop with h | h
    · rcases List.mem_cons.mp h with h | h
      · subst h
        exact Or.inl rfl
      · obtain ⟨b, -, rfl⟩ := List.mem_map.mp h
        exact Or.inl rfl
    · rcases List.mem_cons.mp h with h | h
      · subst h
        exact Or.inr rfl
      · obtain ⟨b, -, rfl⟩ := List.mem_map.mp h
        exact Or.inr rfl
  · unfold persistOps writeFileOps
    simp [applyOps, applyOp]
  · intro hcontra
    exact hne (Option.some.inj hcontra).symm

/-- Witness for C3 at the concrete file system holding a previous
snapshot. -/
theorem c3_witness :
    fsOld indexPath = some [1, 2] ∧ ([1, 2] : List ℕ) ≠ [] ∧
    ((∀ op ∈ persistOps [5] [9], directToFinal op) ∧
     applyOps fsOld ((persistOps [5] [9]).take 1) indexPath = some [] ∧
     ((some ([] : List ℕ)) ≠ some [1, 2])) :=
  ⟨rfl, by decide, c3_persist_not_atomic [5] [9] fsOld [1, 2] rfl (by decide)⟩

/-! ### Claim C5: batch fetch counts and re-run behaviour -/

/-- C5: evaluation of the code at the Scenario B failing input.  The
first fetch over ten collected videos with `v7` permanently unavailable
returns counts (9, 1) after 10 upstream calls without aborting the
batch, exactly as the claim states; but re-running without
`force_refresh` performs 10 upstream calls again instead of 1: the
fetched transcripts were written to `transcripts.parquet` while
`fetch_transcripts` re-reads `videos.parquet`, which never gains a
transcript column, so the skip-already-fetched filter (guarded by the
column-existence check of youtube_service.py line 275) never applies. -/
theorem c5_rerun_refetches_all :
    fetch_transcripts oracleB stB0 none false = .ok ((9, 1), stB1, 10) ∧
    fetch_transcripts oracleB stB1 none false = .ok ((9, 1), stB1, 10) :=
  ⟨by decide, by decide⟩

/-! ### Claim C6: metric mismatch handling -/

unseal Rat.add Rat.mul in
/-- C6 counterexample: the snapshot is built with the cosine metric
(`IndexFlatIP` over normalised vectors), yet a search requesting the
`euclidean` metric does not fail with any metric-mismatch error: it
succeeds and returns exactly the cosine answer. -/
theorem c6_counterexample :
    api_search idxU metaU qU 2 "euclidean" none =
      api_search idxU metaU qU 2 "cosine" none ∧
    api_search idxU metaU qU 2 "euclidean" none =
      .ok [⟨0, "u0", mkRat 4 5⟩, ⟨1, "u1", 0⟩] :=
  ⟨rfl, by decide⟩

/-- C6 amended: the build metric is always cosine (`IndexFlatIP` over
L2-normalised vectors); the requested metric is validated only for
membership in the allowed list `{cosine, euclidean, dot_product}` and is
otherwise ignored: every allowed metric, equal to the build metric or
not, yields exactly the cosine answer (no metric-mismatch failure
exists), and a metric outside the list fails with the membership
error. -/
theorem c6_metric_ignored (index : List Vec) (meta : List TranscriptRow)
    (qe : Vec) (k : ℕ) (ms : Option ℚ) (m : String) :
    (m = "cosine" ∨ m = "euclidean" ∨ m = "dot_product" →
      api_search index meta qe k m ms = api_search index meta qe k "cosine" ms) ∧
    (¬(m = "cosine" ∨ m = "euclidean" ∨ m = "dot_product") →
      api_search index meta qe k m ms =
        .error "Metric must be one of cosine, euclidean, dot_product") := by
  constructor
  · intro hm
    unfold api_search validate_metric
    rw [if_pos hm, if_pos (Or.inl rfl)]
    rfl
  · intro hm
    unfold api_search validate_metric
    rw [if_neg hm]

/-- Witness for C6: the `dot_product` metric against the cosine-built
snapshot yields the cosine answer. -/
theorem c6_witness :
    api_search idxU metaU qU 2 "dot_product" none =
      api_search idxU metaU qU 2 "cosine" none :=
  (c6_metric_ignored idxU metaU qU 2 none "dot_product").1 (Or.inr (Or.inr rfl))

/-! ### Claim C7: retry and error distinguishability -/

/-- C7 counterexample: a transiently failing video is fetched exactly
once (zero retries before being recorded as failed), and the run's
recorded rows and counts are identical to the permanently unavailable
case -- the two outcomes are conflated. -/
theorem c7_counterexample :
    runFetch oracleTransient [rowV1] = runFetch oraclePermanent [rowV1] ∧
    (runFetch oracleTransient [rowV1]).2.2 = 1 :=
  ⟨by decide, by decide⟩

/-- C7 amended: each video in a batch gets exactly one upstream fetch
call (transient errors are never retried), and transient errors are
recorded indistinguishably from permanent unavailability: replacing
every transient outcome of the provider by a permanent one changes
neither the counts, nor the recorded per-video rows, nor the number of
calls. -/
theorem c7_no_retry_and_conflated (o : Oracle) (rows : List TranscriptRow) :
    (runFetch o rows).2.2 = rows.length ∧
    runFetch o rows = runFetch (conflate o) rows := by
  induction rows with
  | nil => exact ⟨rfl, rfl⟩
  | cons r rest ih =>
    obtain ⟨ih1, ih2⟩ := ih
    have hone : fetchOne o r = fetchOne (conflate o) r := by
      unfold fetchOne get_transcript conflate
      cases o r.video_id <;> rfl
    constructor
    · simp [runFetch, ih1]
    · simp [runFetch, hone, ih2]

end YTQ
